import Mathlib

/-!
Verification of `cloud/amazon/elb_application_lb_facts.py` (class
`ElbInformation` and `main`).

The module is a sequential call-and-reshape script over the boto3 `elbv2`
client.  We embed it shallowly:

* boto3 response dictionaries become Lean structures mirroring the keys the
  code reads (`LoadBalancers`, `Listeners`, `ListenerArn`, ...);
* the output dictionaries the code builds become `JVal` values — association
  lists keeping the key *names* and insertion order, since several claims are
  about which keys appear;
* the elbv2 client becomes a `Provider` record of three response oracles, one
  per API call shape the code issues;
* each embedded operation returns the ordered trace of provider calls it made
  together with an `Except PyFail` result: `PyFail.failJson` models
  `module.fail_json` (which aborts the module), `PyFail.typeError` and
  `PyFail.nameError` model uncaught Python exceptions.
-/

/-- JSON-like values: the shapes the module's output dictionaries take.
Objects are association lists in insertion order. -/
inductive JVal where
  | str : String → JVal
  | int : Int → JVal
  | bool : Bool → JVal
  | list : List JVal → JVal
  | obj : List (String × JVal) → JVal

/-- Key lookup in a `JVal` object (first match, like a Python dict read). -/
def jlookup (k : String) : JVal → Option JVal
  | .obj kvs => kvs.lookup k
  | _ => none

/-- The keys of a `JVal` object, in insertion order. -/
def jkeys : JVal → List String
  | .obj kvs => kvs.map Prod.fst
  | _ => []

/-- `elb['State']` — a dict with a `Code` key. -/
structure ElbState where
  Code : String
deriving DecidableEq

/-- One entry of `elb['AvailabilityZones']`. -/
structure Zone where
  SubnetId : String
  ZoneName : String
deriving DecidableEq

/-- One entry of a `describe_listeners` response's `Listeners` list.
`Certificates` is `none` when the key is absent (Python `KeyError`), and each
entry is `none` when its `CertificateArn` key is absent. -/
structure Listener where
  ListenerArn : String
  Port : Int
  Protocol : String
  DefaultActions : JVal
  Certificates : Option (List (Option String))

/-- One entry of the `describe_load_balancers` response's `LoadBalancers`
list, restricted to the keys the code reads. -/
structure Elb where
  LoadBalancerArn : String
  AvailabilityZones : List Zone
  LoadBalancerName : String
  DNSName : String
  SecurityGroups : List String
  State : ElbState

/-- A `describe_listeners` response dict. -/
structure ListenersResponse where
  Listeners : List Listener

/-- A `describe_load_balancers` response dict.  Such a dict always carries at
least the `LoadBalancers` key; `extraKeys` are the remaining top-level keys
(boto3 always adds `ResponseMetadata`), which matter only because the code's
empty-filter branch iterates over the dict's keys. -/
structure DLBResponse where
  LoadBalancers : List Elb
  extraKeys : List String

/-- The top-level keys of a `describe_load_balancers` response dict, in
iteration order: `LoadBalancers` first, then the rest. -/
def dictKeys (resp : DLBResponse) : List String :=
  "LoadBalancers" :: resp.extraKeys

/-- A `BotoServerError`: the fields the code formats into `fail_json`. -/
structure BotoErr where
  error_code : String
  error_message : String
deriving DecidableEq

/-- The elbv2 client, as three response oracles, one per call shape issued:
`describe_load_balancers()`, `describe_listeners(LoadBalancerArn=·)` and
`describe_listeners(ListenerArns=[·])`. -/
structure Provider where
  describe_load_balancers : Except BotoErr DLBResponse
  describe_listeners_by_lb : String → Except BotoErr ListenersResponse
  describe_listeners_by_arn : String → Except BotoErr ListenersResponse

/-- One provider call, for the call trace. -/
inductive Call where
  | describeLoadBalancers : Call
  | describeListenersOfLB : String → Call
  | describeListenerByArn : String → Call
deriving DecidableEq

/-- How an embedded operation aborts: `module.fail_json(msg=·)`, or an
uncaught `TypeError` / `NameError` (the latter carrying the unbound name). -/
inductive PyFail where
  | failJson : String → PyFail
  | typeError : PyFail
  | nameError : String → PyFail
deriving DecidableEq

/-- The `"%s: %s" % (err.error_code, err.error_message)` message the code
passes to `fail_json` on a `BotoServerError`. -/
def botoFailMsg (err : BotoErr) : String :=
  err.error_code ++ ": " ++ err.error_message

/-- `ElbInformation._get_zone_info`: one dict per zone, keys `subnetid` and
`zonename` (sic — the code writes them without underscores). -/
def get_zone_info (zones : List Zone) : List JVal :=
  zones.map (fun zone =>
    JVal.obj [("subnetid", .str zone.SubnetId), ("zonename", .str zone.ZoneName)])

/-- The four-key dict literal built for a listener in `_get_listeners`. -/
def listenerBase (l : Listener) : List (String × JVal) :=
  [("listener_arn", .str l.ListenerArn),
   ("port", .int l.Port),
   ("protocol", .str l.Protocol),
   ("default_actions", l.DefaultActions)]

/-- One inner-loop iteration of `_get_listeners`: build `listener_dict`, then
try `listener['Certificates'][0]['CertificateArn']`; `IndexError` and
`KeyError` are passed over, and otherwise the key is added only under
`if certificate_arn:` — i.e. only when the ARN string is non-empty. -/
def listenerDict (l : Listener) : JVal :=
  match l.Certificates with
  | none => .obj (listenerBase l)
  | some [] => .obj (listenerBase l)
  | some (none :: _) => .obj (listenerBase l)
  | some (some arn :: _) =>
      if arn = "" then .obj (listenerBase l)
      else .obj (listenerBase l ++ [("certificate_arn", .str arn)])

/-- The `for arn in listener_arns:` loop of `_get_listeners`.  The state
`last` is the current value of the Python local `listener_dict`:
`none` while it is still unbound.  For each ARN the code refetches the
listener, rebinds `listener_dict` once per listener in the detail response
(so only the last one survives), and then appends `listener_dict` *outside*
the inner loop — appending the leftover value when the detail response was
empty, and raising `NameError` when no `listener_dict` was ever bound. -/
def listenersLoop (p : Provider) :
    List String → Option JVal → List JVal → List Call →
    List Call × Except PyFail (List JVal)
  | [], _last, acc, tr => (tr, .ok acc)
  | arn :: rest, last, acc, tr =>
    match p.describe_listeners_by_arn arn with
    | .error err =>
        (tr ++ [Call.describeListenerByArn arn], .error (.failJson (botoFailMsg err)))
    | .ok resp =>
        match resp.Listeners.foldl (fun _ l => some (listenerDict l)) last with
        | none =>
            (tr ++ [Call.describeListenerByArn arn], .error (.nameError "listener_dict"))
        | some d =>
            listenersLoop p rest (some d) (acc ++ [d])
              (tr ++ [Call.describeListenerByArn arn])

/-- `ElbInformation._get_listeners`: one bulk `describe_listeners` call for
the load balancer, then the per-ARN refetch loop. -/
def get_listeners (p : Provider) (loadbalancerarns : String) :
    List Call × Except PyFail (List JVal) :=
  match p.describe_listeners_by_lb loadbalancerarns with
  | .error err =>
      ([Call.describeListenersOfLB loadbalancerarns], .error (.failJson (botoFailMsg err)))
  | .ok listeners =>
      listenersLoop p (listeners.Listeners.map (·.ListenerArn)) none []
        [Call.describeListenersOfLB loadbalancerarns]

/-- The dict literal `_get_elb_info` builds, given the listeners value. -/
def elbInfoDict (elb : Elb) (listeners : List JVal) : JVal :=
  .obj [("load_balancer_arn", .str elb.LoadBalancerArn),
        ("zones", .list (get_zone_info elb.AvailabilityZones)),
        ("name", .str elb.LoadBalancerName),
        ("dns_name", .str elb.DNSName),
        ("security_groups", .list (elb.SecurityGroups.map JVal.str)),
        ("state", .str elb.State.Code),
        ("listeners", .list listeners)]

/-- `ElbInformation._get_elb_info` applied to a load-balancer dict. -/
def get_elb_info (p : Provider) (elb : Elb) : List Call × Except PyFail JVal :=
  ((get_listeners p elb.LoadBalancerArn).1,
   match (get_listeners p elb.LoadBalancerArn).2 with
   | .error e => .error e
   | .ok ls => .ok (elbInfoDict elb ls))

/-- `list(map(self._get_elb_info, elb_array))` over a list of load-balancer
dicts: evaluated left to right, aborting at the first failure. -/
def mapElbInfo (p : Provider) : List Elb → List Call × Except PyFail (List JVal)
  | [] => ([], .ok [])
  | e :: rest =>
    let r := get_elb_info p e
    match r.2 with
    | .error f => (r.1, .error f)
    | .ok v =>
      let rr := mapElbInfo p rest
      match rr.2 with
      | .error f => (r.1 ++ rr.1, .error f)
      | .ok vs => (r.1 ++ rr.1, .ok (v :: vs))

/-- `_get_elb_info` applied to a top-level *key* of the response dict (what
the empty-filter branch actually feeds it): the key is a `str`, so
`elb['LoadBalancerArn']` indexes a string with a string and raises
`TypeError`. -/
def get_elb_info_on_key (_key : String) : Except PyFail JVal :=
  .error PyFail.typeError

/-- `list(map(self._get_elb_info, elb_array))` when `elb_array` is the
response dict itself: iterating a dict yields its keys. -/
def mapElbInfoOverKeys : List String → Except PyFail (List JVal)
  | [] => .ok []
  | k :: rest => do
    let v ← get_elb_info_on_key k
    let vs ← mapElbInfoOverKeys rest
    return v :: vs

/-- `ElbInformation.list_elbs`.  On a `BotoServerError` from
`describe_load_balancers` the module fail_jsons with the formatted code and
message.  Otherwise (`if all_elbs:` is always true — the response dict always
holds the `LoadBalancers` key): with a truthy `names` list the code filters
`all_elbs['LoadBalancers']` by exact name membership; with a falsy one it
binds `elb_array = all_elbs` — the response *dict*, not its `LoadBalancers`
list — and the final `list(map(self._get_elb_info, elb_array))` iterates the
dict's keys. -/
def list_elbs (p : Provider) (names : List String) :
    List Call × Except PyFail (List JVal) :=
  match p.describe_load_balancers with
  | .error err =>
      ([Call.describeLoadBalancers], .error (.failJson (botoFailMsg err)))
  | .ok all_elbs =>
      if names ≠ [] then
        let r := mapElbInfo p
          (all_elbs.LoadBalancers.filter (fun lb => names.contains lb.LoadBalancerName))
        (Call.describeLoadBalancers :: r.1, r.2)
      else
        ([Call.describeLoadBalancers], mapElbInfoOverKeys (dictKeys all_elbs))

/-- Truthiness of the resolved region (`if not region:` catches both `None`
and the empty string). -/
def regionTruthy : Option String → Bool
  | none => false
  | some s => !(s == "")

/-- The module's `main`: the `HAS_BOTO` guard, the region guard (both before
any provider call), then `list_elbs`, then the
`dict(changed=False, elbs=...)` result passed to `exit_json`. -/
def main_run (hasBoto : Bool) (region : Option String) (names : List String)
    (p : Provider) : List Call × Except PyFail JVal :=
  if !hasBoto then ([], .error (.failJson "boto required for this module"))
  else if !(regionTruthy region) then
    ([], .error (.failJson "region must be specified"))
  else
    let r := list_elbs p names
    (r.1,
     match r.2 with
     | .error e => .error e
     | .ok elbs => .ok (.obj [("changed", .bool false), ("elbs", .list elbs)]))

/-! Concrete data used by the witness and counterexample theorems. -/

/-- The record built for the last listener of a detail response (junk object
when the response is empty; only used under a non-emptiness hypothesis). -/
def lastRecord (resp : ListenersResponse) : JVal :=
  match resp.Listeners.getLast? with
  | some l => listenerDict l
  | none => .obj []

/-- The per-ARN enumeration `_get_listeners` derives from the bulk call. -/
def listenerArnsOf (resp : ListenersResponse) : List String :=
  resp.Listeners.map (·.ListenerArn)

/-- A provider whose calls all succeed with the given responses. -/
def mkProvider (resp : DLBResponse) (byLB byArn : String → ListenersResponse) :
    Provider :=
  { describe_load_balancers := .ok resp
  , describe_listeners_by_lb := fun a => .ok (byLB a)
  , describe_listeners_by_arn := fun a => .ok (byArn a) }

/-- An HTTP listener with no `Certificates` key. -/
def listenerHTTP : Listener :=
  { ListenerArn := "arn:listener/http-80"
  , Port := 80
  , Protocol := "HTTP"
  , DefaultActions := .list [.obj [("Type", .str "forward"), ("TargetGroupArn", .str "arn:tg/web")]]
  , Certificates := none }

/-- An HTTPS listener with one certificate. -/
def listenerHTTPS : Listener :=
  { ListenerArn := "arn:listener/https-443"
  , Port := 443
  , Protocol := "HTTPS"
  , DefaultActions := .list [.obj [("Type", .str "forward"), ("TargetGroupArn", .str "arn:tg/web")]]
  , Certificates := some [some "arn:acm:cert-1", some "arn:acm:cert-2"] }

/-- A listener whose certificate list has one entry whose ARN is the empty
string (truthiness makes the code drop it). -/
def listenerEmptyArnCert : Listener :=
  { ListenerArn := "arn:listener/https-8443"
  , Port := 8443
  , Protocol := "HTTPS"
  , DefaultActions := .list []
  , Certificates := some [some ""] }

/-- An example availability zone entry. -/
def zoneA : Zone := { SubnetId := "subnet-aaaa", ZoneName := "us-east-1a" }

/-- An example front-end load balancer. -/
def elbFront : Elb :=
  { LoadBalancerArn := "arn:elb/app/frontend-prod-elb/1"
  , AvailabilityZones := [zoneA]
  , LoadBalancerName := "frontend-prod-elb"
  , DNSName := "frontend-prod-elb-1.us-east-1.elb.amazonaws.com"
  , SecurityGroups := ["sg-1111"]
  , State := { Code := "active" } }

/-- An example back-end load balancer. -/
def elbBack : Elb :=
  { LoadBalancerArn := "arn:elb/app/backend-prod-elb/2"
  , AvailabilityZones := [{ SubnetId := "subnet-bbbb", ZoneName := "us-east-1b" }]
  , LoadBalancerName := "backend-prod-elb"
  , DNSName := "backend-prod-elb-2.us-east-1.elb.amazonaws.com"
  , SecurityGroups := ["sg-2222"]
  , State := { Code := "active" } }

/-- A two-load-balancer response with the usual `ResponseMetadata` key. -/
def respTwo : DLBResponse :=
  { LoadBalancers := [elbFront, elbBack], extraKeys := ["ResponseMetadata"] }

/-- A provider reporting two load balancers, each with no listeners. -/
def pTwoNoListeners : Provider :=
  mkProvider respTwo (fun _ => ⟨[]⟩) (fun _ => ⟨[]⟩)

/-- A provider whose `describe_load_balancers` raises `BotoServerError`. -/
def pListFails : Provider :=
  { describe_load_balancers := .error { error_code := "Throttling", error_message := "Rate exceeded" }
  , describe_listeners_by_lb := fun _ => .ok ⟨[]⟩
  , describe_listeners_by_arn := fun _ => .ok ⟨[]⟩ }

/-- Detail oracle for the two-step witness: the bulk call reports the HTTP and
HTTPS listeners, and each detail call returns just the listener asked for. -/
def byArnTwoStep (arn : String) : ListenersResponse :=
  if arn = "arn:listener/http-80" then ⟨[listenerHTTP]⟩
  else if arn = "arn:listener/https-443" then ⟨[listenerHTTPS]⟩
  else ⟨[]⟩

/-- Provider for the two-step-protocol witness. -/
def pTwoStep : Provider :=
  mkProvider { LoadBalancers := [elbFront], extraKeys := ["ResponseMetadata"] }
    (fun _ => ⟨[listenerHTTP, listenerHTTPS]⟩) byArnTwoStep

/-- Provider whose single enumerated listener ARN gets an empty detail
response: the `listener_list.append(listener_dict)` then reads an unbound
local. -/
def pFirstDetailEmpty : Provider :=
  mkProvider { LoadBalancers := [elbFront], extraKeys := ["ResponseMetadata"] }
    (fun _ => ⟨[listenerHTTP]⟩) (fun _ => ⟨[]⟩)

/-- Detail oracle for the leftover-record witness: the first ARN's detail
response holds two listeners, the second ARN's holds none. -/
def byArnLeftover (arn : String) : ListenersResponse :=
  if arn = "arn:listener/http-80" then ⟨[listenerHTTP, listenerHTTPS]⟩
  else ⟨[]⟩

/-- Provider for the leftover-record witness. -/
def pLeftover : Provider :=
  mkProvider { LoadBalancers := [elbFront], extraKeys := ["ResponseMetadata"] }
    (fun _ => ⟨[listenerHTTP, listenerHTTPS]⟩) byArnLeftover

/-- The output `_get_listeners` produces for `pLeftover`: the second ARN's
empty detail response makes the loop append the first ARN's record again. -/
def leftoverOut : List JVal := [listenerDict listenerHTTPS, listenerDict listenerHTTPS]

/-! Helper lemmas. -/

/-- The inner `for listener in listener_data['Listeners']:` loop only rebinds
`listener_dict`: folding the rebinding over the list keeps the initial value
on an empty list and ends at the last listener otherwise. -/
theorem foldl_rebind (f : Listener → JVal) :
    ∀ (ls : List Listener) (init : Option JVal),
      ls.foldl (fun _ l => some (f l)) init =
        match ls.getLast? with
        | none => init
        | some a => some (f a) := by
  intro ls
  induction ls with
  | nil => intro init; rfl
  | cons a rest ih =>
    intro init
    rw [List.foldl_cons, ih]
    cases rest with
    | nil => simp
    | cons b rest2 =>
      cases hg : (b :: rest2).getLast? with
      | none => exact absurd (List.getLast?_eq_none_iff.mp hg) (List.cons_ne_nil b rest2)
      | some c => simp [List.getLast?_cons_cons, hg]

/-- `list(map(self._get_elb_info, ...))` over load-balancer dicts whose
listener fetches all succeed returns the per-balancer records in order. -/
theorem mapElbInfo_ok (p : Provider) (L : Elb → List JVal) :
    ∀ es : List Elb,
      (∀ e ∈ es, (get_listeners p e.LoadBalancerArn).2 = .ok (L e)) →
      (mapElbInfo p es).2 = .ok (es.map (fun e => elbInfoDict e (L e))) := by
  intro es
  induction es with
  | nil => intro _; rfl
  | cons e rest ih =>
    intro h
    have he : (get_listeners p e.LoadBalancerArn).2 = .ok (L e) :=
      h e (List.mem_cons_self e rest)
    have hrest := ih (fun x hx => h x (List.mem_cons_of_mem e hx))
    simp only [mapElbInfo, get_elb_info, he, hrest, List.map_cons]

/-! Claim theorems. -/

/-- Claim C1 (code bug evidence): with the empty name filter, `list_elbs`
binds `elb_array = all_elbs` — the whole response dict — so the final
`list(map(self._get_elb_info, elb_array))` iterates the dict's keys and
`_get_elb_info` raises `TypeError` on the first key, instead of returning one
record per reported load balancer. No listener call is ever made. -/
theorem list_elbs_empty_filter_typeError (p : Provider) (resp : DLBResponse)
    (h : p.describe_load_balancers = .ok resp) :
    list_elbs p [] = ([Call.describeLoadBalancers], .error PyFail.typeError) := by
  simp [list_elbs, h, dictKeys, mapElbInfoOverKeys, get_elb_info_on_key, Bind.bind, Except.bind]

/-- Claim C1 witness: the failure at a concrete two-balancer response. -/
theorem list_elbs_empty_filter_typeError_w :
    list_elbs pTwoNoListeners [] = ([Call.describeLoadBalancers], .error PyFail.typeError) :=
  list_elbs_empty_filter_typeError pTwoNoListeners respTwo rfl

/-- Claim C4: if `describe_load_balancers` raises, the module fail_jsons with
the provider's error code and message (`"%s: %s"`), the trace holds only that
one call — no listener call was issued — and no result list is produced. -/
theorem list_elbs_list_call_fails (p : Provider) (names : List String) (err : BotoErr)
    (h : p.describe_load_balancers = .error err) :
    list_elbs p names =
      ([Call.describeLoadBalancers],
       .error (.failJson (err.error_code ++ ": " ++ err.error_message))) := by
  simp [list_elbs, h, botoFailMsg]

/-- Claim C4 witness: a throttled list call at a concrete provider. -/
theorem list_elbs_list_call_fails_w :
    list_elbs pListFails ["frontend-prod-elb"] =
      ([Call.describeLoadBalancers], .error (.failJson "Throttling: Rate exceeded")) := by
  have h := list_elbs_list_call_fails pListFails ["frontend-prod-elb"]
    { error_code := "Throttling", error_message := "Rate exceeded" } rfl
  exact h.trans (by rfl)

/-- Claim C8: with boto importable but no resolvable region, `main` fail_jsons
with the descriptive message before any provider call (the trace is empty). -/
theorem main_region_unresolved (names : List String) (p : Provider)
    (region : Option String) (h : regionTruthy region = false) :
    main_run true region names p = ([], .error (.failJson "region must be specified")) := by
  simp [main_run, h]

/-- Claim C8 witness: unresolved region at a concrete provider. -/
theorem main_region_unresolved_w :
    main_run true none ["frontend-prod-elb"] pTwoNoListeners =
      ([], .error (.failJson "region must be specified")) :=
  main_region_unresolved ["frontend-prod-elb"] pTwoNoListeners none rfl

/-- Claim C9: `list_elbs` consults the provider only through its three call
shapes, so two runs whose providers answer every call identically produce
identical traces and identical results. -/
theorem list_elbs_deterministic (p q : Provider) (names : List String)
    (h1 : p.describe_load_balancers = q.describe_load_balancers)
    (h2 : ∀ a, p.describe_listeners_by_lb a = q.describe_listeners_by_lb a)
    (h3 : ∀ a, p.describe_listeners_by_arn a = q.describe_listeners_by_arn a) :
    list_elbs p names = list_elbs q names := by
  obtain ⟨p1, p2, p3⟩ := p
  obtain ⟨q1, q2, q3⟩ := q
  simp only at h1 h2 h3
  cases h1
  cases funext h2
  cases funext h3
  rfl

/-- Claim C9 witness: two identically-answering runs at a concrete provider. -/
theorem list_elbs_deterministic_w :
    list_elbs pTwoNoListeners ["frontend-prod-elb"] =
      list_elbs pTwoNoListeners ["frontend-prod-elb"] :=
  list_elbs_deterministic pTwoNoListeners pTwoNoListeners ["frontend-prod-elb"]
    rfl (fun _ => rfl) (fun _ => rfl)

/-- Claim C2: with a non-empty name filter, a successful `list_elbs` run
returns a record for exactly those reported load balancers whose name is an
exact (case-sensitive `in`-membership) member of the filter, in provider
order; filter names matching nothing simply select nothing and cause no
error. `L` gives each retained balancer's fetched listeners value. -/
theorem list_elbs_nonempty_filter (p : Provider) (names : List String)
    (resp : DLBResponse) (L : Elb → List JVal)
    (hn : names ≠ [])
    (hresp : p.describe_load_balancers = .ok resp)
    (hL : ∀ e ∈ resp.LoadBalancers.filter (fun lb => names.contains lb.LoadBalancerName),
          (get_listeners p e.LoadBalancerArn).2 = .ok (L e)) :
    (list_elbs p names).2 =
      .ok ((resp.LoadBalancers.filter (fun lb => names.contains lb.LoadBalancerName)).map
        (fun e => elbInfoDict e (L e))) := by
  simp only [list_elbs, hresp, if_pos hn]
  exact mapElbInfo_ok p L _ hL

/-- Claim C2 witness: filter `["frontend-prod-elb", "absent-elb"]` against a
provider reporting the front-end and back-end balancers keeps exactly the
front-end record; the unmatched name is ignored. -/
theorem list_elbs_nonempty_filter_w :
    (list_elbs pTwoNoListeners ["frontend-prod-elb", "absent-elb"]).2 =
      .ok [elbInfoDict elbFront []] := by
  have h := list_elbs_nonempty_filter pTwoNoListeners ["frontend-prod-elb", "absent-elb"]
    respTwo (fun _ => []) (by decide) rfl (fun e _ => rfl)
  exact h.trans (by rfl)

/-- Claim C3 counterexample: a listener whose certificate list has one entry
with the empty-string ARN. The claim says `certificate_arn` then equals that
first ARN exactly, but `if certificate_arn:` drops falsy strings, so the key
is omitted. -/
theorem listener_cert_empty_string_dropped :
    listenerEmptyArnCert.Certificates = some [some ""] ∧
    jlookup "certificate_arn" (listenerDict listenerEmptyArnCert) = none :=
  ⟨rfl, rfl⟩

/-- Claim C3 amended: with at least one certificate entry whose ARN is present
and non-empty, the record's `certificate_arn` equals the first entry's ARN
exactly; with the certificate list absent or empty, or its first entry's ARN
missing or the empty string, the key is omitted — never an error. -/
theorem listener_cert_amended (l : Listener) :
    (∀ arn rest, l.Certificates = some (some arn :: rest) → arn ≠ "" →
        jlookup "certificate_arn" (listenerDict l) = some (.str arn)) ∧
    ((l.Certificates = none ∨ l.Certificates = some [] ∨
      (∃ rest, l.Certificates = some (none :: rest)) ∨
      (∃ rest, l.Certificates = some (some "" :: rest))) →
        jlookup "certificate_arn" (listenerDict l) = none) := by
  constructor
  · intro arn rest hc hne
    simp [listenerDict, hc, hne, listenerBase, jlookup, List.lookup]
  · rintro (hc | hc | ⟨rest, hc⟩ | ⟨rest, hc⟩) <;>
      simp [listenerDict, hc, listenerBase, jlookup, List.lookup]

/-- Claim C3 witness: the HTTPS listener with two certificates gets exactly
the first certificate's ARN. -/
theorem listener_cert_amended_w :
    jlookup "certificate_arn" (listenerDict listenerHTTPS) =
      some (.str "arn:acm:cert-1") :=
  (listener_cert_amended listenerHTTPS).1 "arn:acm:cert-1" [some "arn:acm:cert-2"]
    rfl (by decide)

/-- Claim C5 counterexample: a zone record's keys are `subnetid` and
`zonename`, not the claimed `subnet_id` and `zone_name`. -/
theorem zone_record_keys_not_underscored :
    get_zone_info [zoneA] =
      [JVal.obj [("subnetid", .str "subnet-aaaa"), ("zonename", .str "us-east-1a")]] ∧
    jkeys (JVal.obj [("subnetid", .str "subnet-aaaa"), ("zonename", .str "us-east-1a")]) =
      ["subnetid", "zonename"] ∧
    "subnet_id" ∉ jkeys (JVal.obj [("subnetid", .str "subnet-aaaa"), ("zonename", .str "us-east-1a")]) ∧
    "zone_name" ∉ jkeys (JVal.obj [("subnetid", .str "subnet-aaaa"), ("zonename", .str "us-east-1a")]) :=
  ⟨rfl, rfl, by decide, by decide⟩

/-- Claim C5 amended: records use the flattened keys — per-ELB
`load_balancer_arn`, `zones`, `name`, `dns_name`, `security_groups`, `state`,
`listeners`; per-listener `listener_arn`, `port`, `protocol`,
`default_actions` plus optional `certificate_arn`; per-zone `subnetid` and
`zonename` (without underscores); and the top-level result is the dict
`changed: false, elbs: [...]`. -/
theorem output_field_names_amended :
    (∀ elb ls, jkeys (elbInfoDict elb ls) =
        ["load_balancer_arn", "zones", "name", "dns_name", "security_groups",
         "state", "listeners"]) ∧
    (∀ l, jkeys (listenerDict l) = ["listener_arn", "port", "protocol", "default_actions"] ∨
        jkeys (listenerDict l) =
          ["listener_arn", "port", "protocol", "default_actions", "certificate_arn"]) ∧
    (∀ zs j, j ∈ get_zone_info zs → jkeys j = ["subnetid", "zonename"]) ∧
    (∀ hasBoto region names p out, (main_run hasBoto region names p).2 = .ok out →
        ∃ elbs, out = .obj [("changed", .bool false), ("elbs", .list elbs)]) := by
  refine ⟨fun elb ls => rfl, ?_, ?_, ?_⟩
  · intro l
    cases hc : l.Certificates with
    | none => exact Or.inl (by simp [listenerDict, hc, listenerBase, jkeys])
    | some cs =>
      cases cs with
      | nil => exact Or.inl (by simp [listenerDict, hc, listenerBase, jkeys])
      | cons c rest =>
        cases c with
        | none => exact Or.inl (by simp [listenerDict, hc, listenerBase, jkeys])
        | some arn =>
          by_cases ha : arn = ""
          · exact Or.inl (by simp [listenerDict, hc, ha, listenerBase, jkeys])
          · exact Or.inr (by simp [listenerDict, hc, ha, listenerBase, jkeys])
  · intro zs j hj
    simp only [get_zone_info, List.mem_map] at hj
    obtain ⟨z, _, rfl⟩ := hj
    rfl
  · intro hasBoto region names p out h
    simp only [main_run] at h
    split at h
    · exact absurd h (by simp)
    · split at h
      · exact absurd h (by simp)
      · split at h
        · exact absurd h (by simp)
        · exact ⟨_, (Except.ok.injEq _ _ ▸ h).symm⟩

/-- Claim C5 witness: the amended key shapes at concrete inputs — the zone
record's keys, and the top-level shape of a concrete successful `main` run. -/
theorem output_field_names_amended_w :
    jkeys (JVal.obj [("subnetid", JVal.str "subnet-aaaa"), ("zonename", JVal.str "us-east-1a")]) =
      ["subnetid", "zonename"] ∧
    (∃ elbs, JVal.obj [("changed", JVal.bool false), ("elbs", JVal.list [elbInfoDict elbFront []])] =
        JVal.obj [("changed", JVal.bool false), ("elbs", JVal.list elbs)]) := by
  constructor
  · exact output_field_names_amended.2.2.1 [zoneA] _
      (by rw [show get_zone_info [zoneA] =
          [JVal.obj [("subnetid", JVal.str "subnet-aaaa"), ("zonename", JVal.str "us-east-1a")]] from rfl]
          exact List.mem_singleton.mpr rfl)
  · exact output_field_names_amended.2.2.2 true (some "us-east-1") ["frontend-prod-elb"]
      pTwoNoListeners _ rfl

/-- Claim C6: a load balancer whose bulk listener call reports no listeners
yields `.ok []` from the listener fetch — not an error — and its record still
carries the `listeners` key, holding the empty list. -/
theorem lb_no_listeners (p : Provider) (elb : Elb)
    (h : p.describe_listeners_by_lb elb.LoadBalancerArn = .ok ⟨[]⟩) :
    (get_listeners p elb.LoadBalancerArn).2 = .ok [] ∧
    (get_elb_info p elb).2 = .ok (elbInfoDict elb []) ∧
    jlookup "listeners" (elbInfoDict elb []) = some (.list []) := by
  have h1 : get_listeners p elb.LoadBalancerArn =
      ([Call.describeListenersOfLB elb.LoadBalancerArn], .ok []) := by
    simp [get_listeners, h, listenersLoop]
  refine ⟨by simp [h1], by simp [get_elb_info, h1], rfl⟩

/-- Claim C6 witness: the front-end balancer on the listenerless provider. -/
theorem lb_no_listeners_w :
    (get_listeners pTwoNoListeners elbFront.LoadBalancerArn).2 = .ok [] ∧
    (get_elb_info pTwoNoListeners elbFront).2 = .ok (elbInfoDict elbFront []) ∧
    jlookup "listeners" (elbInfoDict elbFront []) = some (.list []) :=
  lb_no_listeners pTwoNoListeners elbFront rfl

/-- Per-ARN loop of `_get_listeners` when every detail response is non-empty:
one detail call per ARN in order, and one appended record per ARN, built from
the *last* listener of that ARN's detail response. -/
theorem listenersLoop_nonempty (p : Provider) (D : String → ListenersResponse)
    (hD : ∀ arn, p.describe_listeners_by_arn arn = .ok (D arn)) :
    ∀ (arns : List String) (last : Option JVal) (acc : List JVal) (tr : List Call),
      (∀ arn ∈ arns, (D arn).Listeners ≠ []) →
      listenersLoop p arns last acc tr =
        (tr ++ arns.map Call.describeListenerByArn,
         .ok (acc ++ arns.map (fun arn => lastRecord (D arn)))) := by
  intro arns
  induction arns with
  | nil => intro last acc tr _; simp [listenersLoop]
  | cons arn rest ih =>
    intro last acc tr hne
    have hnil : (D arn).Listeners ≠ [] := hne arn (List.mem_cons_self _ _)
    cases hg : (D arn).Listeners.getLast? with
    | none => exact absurd (List.getLast?_eq_none_iff.mp hg) hnil
    | some l =>
      have hfold : (D arn).Listeners.foldl (fun _ x => some (listenerDict x)) last =
          some (listenerDict l) := by
        rw [foldl_rebind]; simp [hg]
      have hlast : lastRecord (D arn) = listenerDict l := by simp [lastRecord, hg]
      simp only [listenersLoop, hD arn, hfold]
      rw [ih (some (listenerDict l)) (acc ++ [listenerDict l])
        (tr ++ [Call.describeListenerByArn arn])
        (fun a ha => hne a (List.mem_cons_of_mem _ ha))]
      simp [hlast, List.append_assoc]

/-- Claim C7: `_get_listeners` issues exactly one bulk enumeration call
followed by exactly one detail call per enumerated listener ARN, in order,
and builds each record from that ARN's detail response (its last listener),
not from the bulk response's listener entries. -/
theorem get_listeners_two_step (p : Provider) (lbArn : String)
    (resp : ListenersResponse) (D : String → ListenersResponse)
    (h : p.describe_listeners_by_lb lbArn = .ok resp)
    (hD : ∀ arn, p.describe_listeners_by_arn arn = .ok (D arn))
    (hne : ∀ arn ∈ listenerArnsOf resp, (D arn).Listeners ≠ []) :
    get_listeners p lbArn =
      (Call.describeListenersOfLB lbArn ::
         (listenerArnsOf resp).map Call.describeListenerByArn,
       .ok ((listenerArnsOf resp).map (fun arn => lastRecord (D arn)))) := by
  simp only [get_listeners, h]
  rw [show List.map (fun x => x.ListenerArn) resp.Listeners = listenerArnsOf resp from rfl,
    listenersLoop_nonempty p D hD (listenerArnsOf resp) none []
      [Call.describeListenersOfLB lbArn] hne]
  simp

/-- Claim C7 witness: a bulk response enumerating the HTTP and HTTPS
listeners, each refetched individually; the records come from the detail
responses. -/
theorem get_listeners_two_step_w :
    get_listeners pTwoStep "arn:elb/app/frontend-prod-elb/1" =
      (Call.describeListenersOfLB "arn:elb/app/frontend-prod-elb/1" ::
         [Call.describeListenerByArn "arn:listener/http-80",
          Call.describeListenerByArn "arn:listener/https-443"],
       .ok [listenerDict listenerHTTP, listenerDict listenerHTTPS]) := by
  have h := get_listeners_two_step pTwoStep "arn:elb/app/frontend-prod-elb/1"
    ⟨[listenerHTTP, listenerHTTPS]⟩ byArnTwoStep rfl (fun _ => rfl)
    (by
      intro arn harn
      simp [listenerArnsOf, listenerHTTP, listenerHTTPS] at harn
      rcases harn with rfl | rfl <;> simp [byArnTwoStep, listenerHTTP, listenerHTTPS])
  exact h.trans (by rfl)

/-- Full characterisation of a successful per-ARN loop run: the appended
records extend the accumulator by exactly one per ARN; an ARN with a
non-empty detail response contributes its last listener's record; an ARN with
an empty detail response contributes the preceding record again — or, at
position zero, the incoming leftover `listener_dict` (which therefore must
have been bound). -/
theorem listenersLoop_ok_spec (p : Provider) (D : String → ListenersResponse)
    (hD : ∀ arn, p.describe_listeners_by_arn arn = .ok (D arn)) :
    ∀ (arns : List String) (last : Option JVal) (acc : List JVal)
      (tr : List Call) (out : List JVal),
      (listenersLoop p arns last acc tr).2 = .ok out →
      ∃ res, out = acc ++ res ∧ res.length = arns.length ∧
        (∀ (i : Nat) (arn : String) (l : Listener),
            arns[i]? = some arn → (D arn).Listeners.getLast? = some l →
            res[i]? = some (listenerDict l)) ∧
        (∀ (i : Nat) (arn : String), arns[i]? = some arn → (D arn).Listeners = [] →
            (0 < i ∧ res[i]? = res[i - 1]?) ∨
            (i = 0 ∧ ∃ d, last = some d ∧ res[0]? = some d)) := by
  intro arns
  induction arns with
  | nil =>
    intro last acc tr out hout
    have hacc : acc = out := by simpa [listenersLoop] using hout
    subst hacc
    refine ⟨[], by simp, rfl, ?_, ?_⟩
    · intro i arn l hi _
      simp at hi
    · intro i arn hi _
      simp at hi
  | cons arn rest ih =>
    intro last acc tr out hout
    simp only [listenersLoop, hD arn] at hout
    cases hfold : (D arn).Listeners.foldl (fun _ x => some (listenerDict x)) last with
    | none => rw [hfold] at hout; simp at hout
    | some d =>
      rw [hfold] at hout
      obtain ⟨res', heq, hlen, hB, hC⟩ := ih (some d) (acc ++ [d]) _ out hout
      refine ⟨d :: res', by simpa [List.append_assoc] using heq, by simp [hlen], ?_, ?_⟩
      · intro i arn' l hi hl
        cases i with
        | zero =>
          rw [List.getElem?_cons_zero] at hi
          cases Option.some.inj hi
          have : (D arn).Listeners.foldl (fun _ x => some (listenerDict x)) last =
              some (listenerDict l) := by
            rw [foldl_rebind]; simp [hl]
          have hd : d = listenerDict l := Option.some.inj (hfold.symm.trans this)
          simp [hd]
        | succ j =>
          rw [List.getElem?_cons_succ] at hi
          have := hB j arn' l hi hl
          simpa [List.getElem?_cons_succ] using this
      · intro i arn' hi hemp
        cases i with
        | zero =>
          rw [List.getElem?_cons_zero] at hi
          cases Option.some.inj hi
          rw [hemp, List.foldl_nil] at hfold
          exact Or.inr ⟨rfl, d, hfold, by simp⟩
        | succ j =>
          rw [List.getElem?_cons_succ] at hi
          rcases hC j arn' hi hemp with ⟨hpos, heq2⟩ | ⟨hj0, d', hd', h0⟩
          · left
            obtain ⟨k, rfl⟩ := Nat.exists_eq_add_of_lt hpos
            refine ⟨Nat.succ_pos _, ?_⟩
            simpa [List.getElem?_cons_succ] using heq2
          · subst hj0
            cases Option.some.inj hd'
            refine Or.inl ⟨Nat.one_pos, ?_⟩
            simp [h0]

/-- Claim C10 counterexample: one enumerated listener ARN whose detail
response contains zero listeners. No record is appended at all — there is no
previous iteration's record to fall back on — and the fetch dies with
`NameError` on the unbound `listener_dict`. -/
theorem get_listeners_first_detail_empty_nameError :
    get_listeners pFirstDetailEmpty "arn:elb/app/frontend-prod-elb/1" =
      ([Call.describeListenersOfLB "arn:elb/app/frontend-prod-elb/1",
        Call.describeListenerByArn "arn:listener/http-80"],
       .error (.nameError "listener_dict")) := rfl

/-- Claim C10 amended: on a *successful* run `_get_listeners` appends exactly
one record per enumerated listener ARN; an ARN whose detail response is
non-empty contributes its last listener's record (so with more than one
listener only the last survives); an ARN whose detail response is empty
cannot be the first one (otherwise the fetch fails with `NameError` on the
unbound `listener_dict`) and contributes the previous ARN's record again. -/
theorem get_listeners_one_record_per_arn (p : Provider) (lbArn : String)
    (resp : ListenersResponse) (D : String → ListenersResponse) (out : List JVal)
    (h : p.describe_listeners_by_lb lbArn = .ok resp)
    (hD : ∀ arn, p.describe_listeners_by_arn arn = .ok (D arn))
    (hout : (get_listeners p lbArn).2 = .ok out) :
    out.length = (listenerArnsOf resp).length ∧
    (∀ (i : Nat) (arn : String) (l : Listener),
        (listenerArnsOf resp)[i]? = some arn → (D arn).Listeners.getLast? = some l →
        out[i]? = some (listenerDict l)) ∧
    (∀ (i : Nat) (arn : String),
        (listenerArnsOf resp)[i]? = some arn → (D arn).Listeners = [] →
        0 < i ∧ out[i]? = out[i - 1]?) := by
  simp only [get_listeners, h] at hout
  obtain ⟨res, heq, hlen, hB, hC⟩ :=
    listenersLoop_ok_spec p D hD (listenerArnsOf resp) none []
      [Call.describeListenersOfLB lbArn] out hout
  have hres : out = res := by simpa using heq
  subst hres
  refine ⟨hlen, hB, ?_⟩
  intro i arn hi hemp
  rcases hC i arn hi hemp with hleft | ⟨_, d, hd, _⟩
  · exact hleft
  · exact absurd hd (by simp)

/-- Claim C10 witness: two enumerated ARNs, the first detail response holding
two listeners and the second none — the run yields two records, and the
second equals the first (the leftover `listener_dict`). -/
theorem get_listeners_one_record_per_arn_w :
    leftoverOut.length = 2 ∧ leftoverOut[1]? = leftoverOut[0]? := by
  have h := get_listeners_one_record_per_arn pLeftover "arn:elb/app/frontend-prod-elb/1"
    ⟨[listenerHTTP, listenerHTTPS]⟩ byArnLeftover leftoverOut rfl (fun _ => rfl) rfl
  refine ⟨h.1.trans (by rfl), ?_⟩
  have h2 := h.2.2 1 "arn:listener/https-443" (by rfl) (by rfl)
  simpa using h2.2
